import Mathlib

/-!
Verification of the q2-vsearch plugin registrations
(`src/q2_vsearch/plugin_setup.py`).

The repository consists of one declarative registration module: three
method registrations (`cluster_features_de_novo`,
`cluster_features_closed_reference`, `dereplicate_sequences`) each naming
their typed inputs, constrained parameters and typed outputs.  We embed
the registration data literally, together with the membership semantics of
the `Range` and `Choices` parameter constraints.  The wrapped
implementation modules (`q2_vsearch/_cluster_features.py`,
`q2_vsearch/_cluster_sequences.py`) are part of the repository but not
present under `src/`; the behavioural definitions below that stand in for
them are modelled from the specification and marked as such.
-/

namespace Q2Vsearch

/-- the QIIME 2 semantic artifact types that appear in the registrations -/
inductive SemType where
  | FeatureTableFrequency
  | FeatureDataSequence
  | SampleDataSequences
  deriving DecidableEq

/-- a constrained parameter type expression: `Float % Range`,
`Int % Range` or `Str % Choices`, with the bounds and inclusivity flags
exactly as written at the registration site -/
inductive ParamType where
  | floatRange (low high : ℚ) (inclusive_start inclusive_end : Bool)
  | intRange (low high : ℤ) (inclusive_start inclusive_end : Bool)
  | strChoices (choices : List String)
  deriving DecidableEq

/-- a concrete argument value supplied for a parameter -/
inductive ParamValue where
  | float (x : ℚ)
  | int (n : ℤ)
  | str (s : String)
  deriving DecidableEq

/-- membership test of a value in a constrained parameter type:
`Range(low, high, inclusive_start, inclusive_end)` admits the values
between its bounds, each bound strict or weak according to its flag, and
`Choices(cs)` admits exactly the listed strings -/
def ParamType.accepts : ParamType → ParamValue → Bool
  | .floatRange low high inclusive_start inclusive_end, .float x =>
      (if inclusive_start then decide (low ≤ x) else decide (low < x)) &&
      (if inclusive_end then decide (x ≤ high) else decide (x < high))
  | .intRange low high inclusive_start inclusive_end, .int n =>
      (if inclusive_start then decide (low ≤ n) else decide (low < n)) &&
      (if inclusive_end then decide (n ≤ high) else decide (n < high))
  | .strChoices choices, .str s => choices.contains s
  | _, _ => false

/-- one `plugin.methods.register_function` call: the wrapped function
name, the typed inputs, the constrained parameters and the typed,
ordered outputs -/
structure Registration where
  fname : String
  inputs : List (String × SemType)
  parameters : List (String × ParamType)
  outputs : List (String × SemType)
  deriving DecidableEq

/-- the registration of `cluster_features_de_novo`
(plugin_setup.py lines 33-79) -/
def cluster_features_de_novo_registration : Registration where
  fname := "cluster_features_de_novo"
  inputs := [("table", .FeatureTableFrequency),
             ("sequences", .FeatureDataSequence)]
  parameters := [("perc_identity", .floatRange 0 1 false true),
                 ("threads", .intRange 0 256 true true)]
  outputs := [("clustered_table", .FeatureTableFrequency),
              ("clustered_sequences", .FeatureDataSequence)]

/-- the registration of `cluster_features_closed_reference`
(plugin_setup.py lines 81-136) -/
def cluster_features_closed_reference_registration : Registration where
  fname := "cluster_features_closed_reference"
  inputs := [("table", .FeatureTableFrequency),
             ("sequences", .FeatureDataSequence),
             ("reference_sequences", .FeatureDataSequence)]
  parameters := [("perc_identity", .floatRange 0 1 false true),
                 ("strand", .strChoices ["plus", "both"]),
                 ("threads", .intRange 0 256 true true)]
  outputs := [("clustered_table", .FeatureTableFrequency),
              ("unmatched_sequences", .FeatureDataSequence)]

/-- the registration of `dereplicate_sequences`
(plugin_setup.py lines 138-163) -/
def dereplicate_sequences_registration : Registration where
  fname := "dereplicate_sequences"
  inputs := [("sequences", .SampleDataSequences)]
  parameters := []
  outputs := [("dereplicated_table", .FeatureTableFrequency),
              ("dereplicated_sequences", .FeatureDataSequence)]

/-- the full list of registrations performed by plugin_setup.py, in
source order -/
def plugin_methods : List Registration :=
  [cluster_features_de_novo_registration,
   cluster_features_closed_reference_registration,
   dereplicate_sequences_registration]

/-- a feature table, given as a list of observations
(feature id, sample id, frequency) -/
abbrev FeatureTableObs := String × String × ℕ

/-- the frequency of feature f in sample s: the sum of the matching
observations of the table -/
def freqIn (t : List FeatureTableObs) (f s : String) : ℕ :=
  ((t.filter (fun e => e.1 == f && e.2.1 == s)).map (fun e => e.2.2)).sum

/-- the distinct feature ids occurring in a table -/
def features (t : List FeatureTableObs) : List String :=
  (t.map Prod.fst).dedup

/-- Modelled from the spec: the wrapped implementation module
`q2_vsearch._cluster_features` is not under src/.  Per the spec, both
clustering operations group the input features into clusters and each
output feature identifier is inherited from the cluster centroid;
`clusterOf` gives the centroid feature id of each input feature.  The
clustered table records every observation of the input table under the
centroid id of its feature, so the frequency of an output feature in a
sample is the sum of the frequencies of the constituent features. -/
def cluster_table (clusterOf : String → String)
    (t : List FeatureTableObs) : List FeatureTableObs :=
  t.map (fun e => (clusterOf e.1, e.2.1, e.2.2))

/-- Modelled from the spec: in de novo clustering, output sequences are
inherited from the centroid feature of each cluster; for each centroid
id that occurs, the output pairs it with the centroid feature's own
input sequence. -/
def cluster_sequences_de_novo (clusterOf : String → String)
    (seqs : List (String × String)) : List (String × String) :=
  ((seqs.map (fun p => clusterOf p.1)).dedup).filterMap
    (fun c => (seqs.lookup c).map (fun q => (c, q)))

/-- Modelled from the spec: closed-reference clustering assigns input
sequences to clusters defined by a fixed reference database, with
`aligns` abstracting the external aligner's percent-identity match
test; the input sequences that fail to match any reference sequence are
reported separately as the unmatched_sequences output. -/
def closed_reference_unmatched (aligns : String → String → Bool)
    (sequences refs : List String) : List String :=
  sequences.filter (fun q => !refs.any (fun r => aligns q r))

/-- Modelled from the spec: the wrapped implementation module
`q2_vsearch._cluster_sequences` is not under src/.  Per the spec,
`dereplicate_sequences` collapses identical sequences (given as
(sample id, sequence) reads) into a single feature, counting
occurrences, and the feature identifier in both the dereplicated table
and the dereplicated sequences is the sha1 hash, abstracted here as the
function `sha1`, of the sequence defining the feature. -/
def dereplicate_sequences_model (sha1 : String → String)
    (reads : List (String × String)) :
    List (String × ℕ) × List (String × String) :=
  let uniq := (reads.map Prod.snd).dedup
  (uniq.map (fun q => (sha1 q, (reads.filter (fun r => r.2 == q)).length)),
   uniq.map (fun q => (sha1 q, q)))

/-- the outcome of invoking a registered method -/
inductive CallResult where
  | rejected
  | failure (code : ℕ)
  | success
  deriving DecidableEq

/-- the host framework's parameter validation: every declared parameter
must be supplied with an argument accepted by its declared constraint -/
def validates (reg : Registration) (args : List (String × ParamValue)) : Bool :=
  reg.parameters.all (fun p =>
    match args.lookup p.1 with
    | some v => p.2.accepts v
    | none => false)

/-- Modelled from the spec: the host framework validates the supplied
arguments against the declared parameter constraints before the wrapped
function runs; the wrapped function then only shells out to the external
program, whose non-zero exit status is propagated as a generic failure
and whose zero exit status yields the outputs.  No retry and no
partial-failure recovery exist. -/
def invoke (reg : Registration) (args : List (String × ParamValue))
    (exitCode : ℕ) : CallResult :=
  if validates reg args then
    (if exitCode = 0 then .success else .failure exitCode)
  else .rejected

/-- C1: for both clustering operations, `perc_identity` is registered as
`Float % Range(0, 1, inclusive_start=False, inclusive_end=True)`, and that
constraint accepts a value x exactly when 0 < x and x ≤ 1: 0 is rejected,
1 is accepted, every value outside (0, 1] is rejected. -/
theorem perc_identity_accepts_exactly_open_zero_closed_one (x : ℚ) :
    cluster_features_de_novo_registration.parameters.lookup "perc_identity" =
      some (ParamType.floatRange 0 1 false true) ∧
    cluster_features_closed_reference_registration.parameters.lookup "perc_identity" =
      some (ParamType.floatRange 0 1 false true) ∧
    ((ParamType.floatRange 0 1 false true).accepts (ParamValue.float x) = true ↔
      0 < x ∧ x ≤ 1) := by
  refine ⟨rfl, rfl, ?_⟩
  simp [ParamType.accepts]

/-- C2: for both clustering operations, `threads` is registered as
`Int % Range(0, 256, inclusive_start=True, inclusive_end=True)`, and that
constraint accepts an integer n exactly when 0 ≤ n and n ≤ 256: both
endpoints are accepted, every integer outside [0, 256] is rejected. -/
theorem threads_accepts_exactly_zero_to_256 (n : ℤ) :
    cluster_features_de_novo_registration.parameters.lookup "threads" =
      some (ParamType.intRange 0 256 true true) ∧
    cluster_features_closed_reference_registration.parameters.lookup "threads" =
      some (ParamType.intRange 0 256 true true) ∧
    ((ParamType.intRange 0 256 true true).accepts (ParamValue.int n) = true ↔
      0 ≤ n ∧ n ≤ 256) := by
  refine ⟨rfl, rfl, ?_⟩
  simp [ParamType.accepts]

/-- C3: the strand parameter is registered as
`Str % Choices(['plus', 'both'])`, and that constraint accepts a string s
exactly when s is "plus" or s is "both"; every other string is
rejected. -/
theorem strand_accepts_exactly_plus_and_both (s : String) :
    cluster_features_closed_reference_registration.parameters.lookup "strand" =
      some (ParamType.strChoices ["plus", "both"]) ∧
    ((ParamType.strChoices ["plus", "both"]).accepts (ParamValue.str s) = true ↔
      s = "plus" ∨ s = "both") := by
  refine ⟨rfl, ?_⟩
  simp [ParamType.accepts, List.contains, List.elem_iff]

/-- C4: the plugin registers exactly three operations, and for each one
the declared signature fixes the input artifact types, the constrained
parameter types, and the output artifact types: de novo clustering takes
table FeatureTable[Frequency] and sequences FeatureData[Sequence] and
yields clustered_table and clustered_sequences; closed-reference
clustering additionally takes reference_sequences FeatureData[Sequence]
and yields clustered_table and unmatched_sequences; dereplication takes
sequences SampleData[Sequences] and yields dereplicated_table and
dereplicated_sequences. -/
theorem plugin_registers_exactly_three_operations :
    plugin_methods.length = 3 ∧
    plugin_methods.map Registration.fname =
      ["cluster_features_de_novo", "cluster_features_closed_reference",
       "dereplicate_sequences"] ∧
    plugin_methods.map Registration.inputs =
      [[("table", .FeatureTableFrequency), ("sequences", .FeatureDataSequence)],
       [("table", .FeatureTableFrequency), ("sequences", .FeatureDataSequence),
        ("reference_sequences", .FeatureDataSequence)],
       [("sequences", .SampleDataSequences)]] ∧
    plugin_methods.map Registration.parameters =
      [[("perc_identity", .floatRange 0 1 false true),
        ("threads", .intRange 0 256 true true)],
       [("perc_identity", .floatRange 0 1 false true),
        ("strand", .strChoices ["plus", "both"]),
        ("threads", .intRange 0 256 true true)],
       []] ∧
    plugin_methods.map Registration.outputs =
      [[("clustered_table", .FeatureTableFrequency),
        ("clustered_sequences", .FeatureDataSequence)],
       [("clustered_table", .FeatureTableFrequency),
        ("unmatched_sequences", .FeatureDataSequence)],
       [("dereplicated_table", .FeatureTableFrequency),
        ("dereplicated_sequences", .FeatureDataSequence)]] :=
  ⟨rfl, rfl, rfl, rfl, rfl⟩

/-- C10: the parameter sets of the three operations differ:
cluster_features_de_novo declares exactly perc_identity and threads,
cluster_features_closed_reference declares exactly perc_identity, strand
and threads (strand appears only there), and dereplicate_sequences
declares no parameters at all. -/
theorem parameter_sets_differ_across_operations :
    cluster_features_de_novo_registration.parameters.map Prod.fst =
      ["perc_identity", "threads"] ∧
    cluster_features_closed_reference_registration.parameters.map Prod.fst =
      ["perc_identity", "strand", "threads"] ∧
    dereplicate_sequences_registration.parameters = [] ∧
    cluster_features_de_novo_registration.parameters.lookup "strand" = none ∧
    dereplicate_sequences_registration.parameters.lookup "strand" = none :=
  ⟨rfl, rfl, rfl, rfl, rfl⟩

lemma freqIn_nil (f s : String) : freqIn [] f s = 0 := rfl

lemma freqIn_cons (e : FeatureTableObs) (t : List FeatureTableObs)
    (f s : String) :
    freqIn (e :: t) f s =
      (if e.1 = f ∧ e.2.1 = s then e.2.2 else 0) + freqIn t f s := by
  by_cases h1 : e.1 = f <;> by_cases h2 : e.2.1 = s <;>
    simp [freqIn, List.filter_cons, h1, h2]

lemma sum_map_add {α : Type} (l : List α) (f g : α → ℕ) :
    (l.map (fun x => f x + g x)).sum = (l.map f).sum + (l.map g).sum := by
  induction l with
  | nil => rfl
  | cons a l ih => simp [ih]; ring

lemma sum_map_ite_eq (l : List String) (hnd : l.Nodup) (a : String)
    (v : ℕ) :
    (l.map (fun f => if a = f then v else 0)).sum =
      if a ∈ l then v else 0 := by
  induction l with
  | nil => simp
  | cons b l ih =>
    rcases List.nodup_cons.mp hnd with ⟨hb, hnd'⟩
    by_cases hab : a = b
    · subst hab
      simp [ih hnd', hb]
    · simp [hab, ih hnd']

lemma freqIn_cluster_table (clusterOf : String → String)
    (fs : List String) (t : List FeatureTableObs) (hnd : fs.Nodup)
    (hcl : ∀ e ∈ t, e.1 ∈ fs) (c s : String) :
    freqIn (cluster_table clusterOf t) c s =
      ((fs.filter (fun f => clusterOf f == c)).map
        (fun f => freqIn t f s)).sum := by
  induction t with
  | nil => simp [cluster_table, freqIn_nil]
  | cons e t ih =>
    have he : e.1 ∈ fs := hcl e (List.mem_cons_self e t)
    have hcl' : ∀ x ∈ t, x.1 ∈ fs := fun x hx =>
      hcl x (List.mem_cons_of_mem e hx)
    have hmap : cluster_table clusterOf (e :: t) =
        (clusterOf e.1, e.2.1, e.2.2) :: cluster_table clusterOf t := rfl
    rw [hmap, freqIn_cons]
    have hrhs : ((fs.filter (fun f => clusterOf f == c)).map
        (fun f => freqIn (e :: t) f s)).sum =
        ((fs.filter (fun f => clusterOf f == c)).map
          (fun f => (if e.1 = f ∧ e.2.1 = s then e.2.2 else 0))).sum +
        ((fs.filter (fun f => clusterOf f == c)).map
          (fun f => freqIn t f s)).sum := by
      rw [← sum_map_add]
      exact congrArg List.sum
        (List.map_congr_left (fun f _ => freqIn_cons e t f s))
    rw [hrhs, ← ih hcl']
    congr 1
    by_cases hs : e.2.1 = s
    · have hconv : ((fs.filter (fun f => clusterOf f == c)).map
          (fun f => (if e.1 = f ∧ e.2.1 = s then e.2.2 else 0))).sum =
          ((fs.filter (fun f => clusterOf f == c)).map
            (fun f => (if e.1 = f then e.2.2 else 0))).sum := by
        refine congrArg List.sum (List.map_congr_left (fun f _ => ?_))
        by_cases hf : e.1 = f <;> simp [hf, hs]
      rw [hconv]
      have hnd' := List.Nodup.filter (fun f => clusterOf f == c) hnd
      rw [sum_map_ite_eq (fs.filter (fun f => clusterOf f == c)) hnd'
        e.1 e.2.2]
      by_cases hc : clusterOf e.1 = c
      · simp [List.mem_filter, he, hc, hs]
      · simp [List.mem_filter, hc, hs]
    · simp [hs]

/-- C5: cluster_features_closed_reference declares a distinct second
output, unmatched_sequences of type FeatureData[Sequence], and in the
modelled closed-reference clustering the unmatched output contains
exactly the input sequences that fail to match every reference
sequence. -/
theorem unmatched_sequences_are_exactly_nonmatching
    (aligns : String → String → Bool) (sequences refs : List String)
    (q : String) :
    cluster_features_closed_reference_registration.outputs =
      [("clustered_table", .FeatureTableFrequency),
       ("unmatched_sequences", .FeatureDataSequence)] ∧
    (q ∈ closed_reference_unmatched aligns sequences refs ↔
      q ∈ sequences ∧ ∀ r ∈ refs, aligns q r = false) := by
  refine ⟨rfl, ?_⟩
  simp [closed_reference_unmatched, List.mem_filter]

/-- witness for C5: with an equality matcher, the sequence AG of the
input [AC, AG] fails to match the single reference AC and is exactly
the unmatched output. -/
theorem unmatched_sequences_are_exactly_nonmatching_witness :
    cluster_features_closed_reference_registration.outputs =
      [("clustered_table", .FeatureTableFrequency),
       ("unmatched_sequences", .FeatureDataSequence)] ∧
    ("AG" ∈ closed_reference_unmatched (fun q r => q == r) ["AC", "AG"]
        ["AC"] ↔
      "AG" ∈ ["AC", "AG"] ∧ ∀ r ∈ ["AC"],
        (fun q r : String => q == r) "AG" r = false) :=
  unmatched_sequences_are_exactly_nonmatching (fun q r => q == r)
    ["AC", "AG"] ["AC"] "AG"

/-- C6: whenever features of the input table are clustered, the
frequency of an output feature c in a sample s equals the sum, over the
constituent input features assigned to c, of their frequencies in s. -/
theorem clustered_frequency_is_sum_of_constituents
    (clusterOf : String → String) (t : List FeatureTableObs)
    (c s : String) :
    freqIn (cluster_table clusterOf t) c s =
      (((features t).filter (fun f => clusterOf f == c)).map
        (fun f => freqIn t f s)).sum :=
  freqIn_cluster_table clusterOf (features t) t (List.nodup_dedup _)
    (fun e he => by
      simp only [features, List.mem_dedup, List.mem_map]
      exact ⟨e, he, rfl⟩) c s

/-- witness for C6: clustering both features of a two-feature table into
the centroid f1 gives f1 the summed frequency in sample s1. -/
theorem clustered_frequency_is_sum_of_constituents_witness :
    freqIn (cluster_table (fun _ => "f1")
        [("f1", "s1", 3), ("f2", "s1", 4)]) "f1" "s1" =
      (((features [("f1", "s1", 3), ("f2", "s1", 4)]).filter
          (fun f => (fun _ : String => "f1") f == "f1")).map
        (fun f => freqIn [("f1", "s1", 3), ("f2", "s1", 4)] f "s1")).sum :=
  clustered_frequency_is_sum_of_constituents (fun _ => "f1")
    [("f1", "s1", 3), ("f2", "s1", 4)] "f1" "s1"

/-- C7: every feature identifier of the clustered table is the centroid
id of one of the constituent input features, and in de novo clustering
every output sequence entry pairs a centroid id with that centroid
feature's own input sequence. -/
theorem clustered_ids_inherited_from_centroid
    (clusterOf : String → String) (t : List FeatureTableObs)
    (seqs : List (String × String)) :
    (∀ f ∈ features (cluster_table clusterOf t),
      ∃ f0 ∈ features t, f = clusterOf f0) ∧
    (∀ p ∈ cluster_sequences_de_novo clusterOf seqs,
      (∃ f0 ∈ seqs.map Prod.fst, p.1 = clusterOf f0) ∧
      seqs.lookup p.1 = some p.2) := by
  constructor
  · intro f hf
    simp only [features, cluster_table, List.map_map, List.mem_dedup,
      List.mem_map, Function.comp] at hf
    obtain ⟨e, he, hef⟩ := hf
    refine ⟨e.1, ?_, hef.symm⟩
    simp only [features, List.mem_dedup, List.mem_map]
    exact ⟨e, he, rfl⟩
  · intro p hp
    simp only [cluster_sequences_de_novo, List.mem_filterMap,
      List.mem_dedup, List.mem_map] at hp
    obtain ⟨c, ⟨p0, hp0, hc⟩, hsome⟩ := hp
    rcases Option.map_eq_some'.mp hsome with ⟨q, hq, hpq⟩
    subst hpq
    exact ⟨⟨p0.1, List.mem_map_of_mem Prod.fst hp0, hc.symm⟩, hq ▸ rfl⟩

/-- witness for C7: with both features clustered into centroid f1, the
output table feature f1 is the centroid id of a constituent input
feature, and the output sequence entry for f1 carries the input
sequence of f1. -/
theorem clustered_ids_inherited_from_centroid_witness :
    ("f1" ∈ features (cluster_table (fun _ => "f1")
        [("f1", "s1", 3), ("f2", "s1", 4)]) ∧
      ∃ f0 ∈ features [("f1", "s1", 3), ("f2", "s1", 4)],
        "f1" = (fun _ : String => "f1") f0) ∧
    ((("f1", "AC") : String × String) ∈ cluster_sequences_de_novo
        (fun _ => "f1") [("f1", "AC"), ("f2", "AG")] ∧
      (∃ f0 ∈ [("f1", "AC"), ("f2", "AG")].map Prod.fst,
          (("f1", "AC") : String × String).1 = (fun _ : String => "f1") f0) ∧
      [("f1", "AC"), ("f2", "AG")].lookup
          (("f1", "AC") : String × String).1 = some "AC") :=
  ⟨⟨by decide,
    (clustered_ids_inherited_from_centroid (fun _ => "f1")
      [("f1", "s1", 3), ("f2", "s1", 4)] [("f1", "AC"), ("f2", "AG")]).1
      "f1" (by decide)⟩,
   ⟨by decide,
    (clustered_ids_inherited_from_centroid (fun _ => "f1")
      [("f1", "s1", 3), ("f2", "s1", 4)] [("f1", "AC"), ("f2", "AG")]).2
      ("f1", "AC") (by decide)⟩⟩

/-- C8: every feature identifier produced by dereplication, in the
dereplicated table and in the dereplicated sequences alike, is the sha1
hash of the sequence content defining that feature, and the table ids
coincide with the sequence-output ids. -/
theorem dereplicated_ids_are_sha1_of_sequence (sha1 : String → String)
    (reads : List (String × String)) :
    (∀ p ∈ (dereplicate_sequences_model sha1 reads).2, p.1 = sha1 p.2) ∧
    (∀ i ∈ (dereplicate_sequences_model sha1 reads).1.map Prod.fst,
      ∃ q ∈ reads.map Prod.snd, i = sha1 q) ∧
    (dereplicate_sequences_model sha1 reads).1.map Prod.fst =
      (dereplicate_sequences_model sha1 reads).2.map Prod.fst := by
  refine ⟨?_, ?_, ?_⟩
  · intro p hp
    simp only [dereplicate_sequences_model, List.mem_map] at hp
    obtain ⟨q, hq, hpq⟩ := hp
    subst hpq
    rfl
  · intro i hi
    simp only [dereplicate_sequences_model, List.map_map, List.mem_map,
      Function.comp] at hi
    obtain ⟨q, hq, hiq⟩ := hi
    exact ⟨q, List.mem_dedup.mp hq, hiq.symm⟩
  · simp [dereplicate_sequences_model, List.map_map, Function.comp]

/-- witness for C8: dereplicating two identical reads yields the single
feature whose id is the hash of its sequence. -/
theorem dereplicated_ids_are_sha1_of_sequence_witness :
    (("hAC", "AC") : String × String) ∈
      (dereplicate_sequences_model (fun q => "h" ++ q)
        [("s1", "AC"), ("s2", "AC")]).2 ∧
    (("hAC", "AC") : String × String).1 =
      (fun q : String => "h" ++ q) (("hAC", "AC") : String × String).2 :=
  ⟨by decide,
   (dereplicated_ids_are_sha1_of_sequence (fun q => "h" ++ q)
     [("s1", "AC"), ("s2", "AC")]).1 ("hAC", "AC") (by decide)⟩

/-- C9: a modelled invocation has exactly three outcomes: it is rejected,
before the external program runs, exactly when the declared parameter
constraints reject the supplied arguments; it fails exactly when the
arguments validate and the external program exits non-zero, the exit
code being propagated unchanged; and it succeeds exactly when the
arguments validate and the exit code is zero.  In particular there are
only the two failure modes and no retry. -/
theorem invoke_failure_modes (reg : Registration)
    (args : List (String × ParamValue)) (exitCode : ℕ) :
    (invoke reg args exitCode = .rejected ↔ validates reg args = false) ∧
    (∀ c, invoke reg args exitCode = .failure c ↔
      validates reg args = true ∧ exitCode ≠ 0 ∧ c = exitCode) ∧
    (invoke reg args exitCode = .success ↔
      validates reg args = true ∧ exitCode = 0) := by
  by_cases hv : validates reg args <;> by_cases he : exitCode = 0 <;>
    simp [invoke, hv, he, eq_comm]

/-- witness for C9: calling dereplicate_sequences with no arguments
validates, and an external exit status of 1 is propagated as a
failure. -/
theorem invoke_failure_modes_witness :
    invoke dereplicate_sequences_registration [] 1 = CallResult.failure 1 :=
  ((invoke_failure_modes dereplicate_sequences_registration [] 1).2.1
    1).mpr ⟨rfl, by decide, rfl⟩

end Q2Vsearch
